import Mathlib

/-!
# Verification of the cch-2024 Connect-Four core (day twelve)

Shallow embedding of `src/utils/connect_four.rs` and `src/modules/day_twelve.rs`.

The board is the 4×4 array `[[Cell; BOARD_SIZE]; BOARD_SIZE]` with
`BOARD_SIZE = 4`, embedded as a function `Fin 4 → Fin 4 → Option Player`
(`Cell` derefs to `Option<Player>` in the source).  Rust's in-place mutation
becomes explicit state passing: `play` returns the new board together with an
optional error, handlers return a response and the new session state.

The `rand::StdRng` generator is embedded abstractly: a state is a pair of the
seed it was created from and the number of booleans drawn so far, and the
actual bit stream is an arbitrary function `g : Nat → Nat → Bool` of seed and
position, universally quantified in every theorem.  All claims about the RNG
depend only on its determinism (a pure function of the state), never on the
values of particular bits, so this is faithful to the `SeedableRng` contract.
-/

namespace CCH

/-- The two players of `connect_four.rs` (`enum Player { Milk, Cookie }`). -/
inductive Player where
  | milk
  | cookie
deriving DecidableEq, Fintype

/-- `Cell` in the source is a newtype over `Option<Player>`. -/
abbrev Cell := Option Player

/-- `BOARD_SIZE = 4`; the board field `[[Cell; 4]; 4]`, indexed row-major:
`board r c` is row `r` (row 0 on top), column `c`. -/
abbrev Board := Fin 4 → Fin 4 → Cell

/-- `Connect4::new()`: every cell `Cell::default() = Cell(None)`. -/
def Connect4.new : Board := fun _ _ => none

/-- Writing one cell of the board (`row[column] = v` on row `r`). -/
def setCell (b : Board) (r c : Fin 4) (v : Cell) : Board :=
  fun r' c' => if r' = r ∧ c' = c then v else b r' c'

/-- The two `bail!` errors of `Connect4::play`. -/
inductive PlayError where
  | invalidColumn
  | columnFull
deriving DecidableEq

/-- The row receiving the marker in `Connect4::play`: the loop
`for row in self.board.iter_mut().rev()` visits rows 3, 2, 1, 0 and stops at
the first whose cell in the column `is_none()`; here the loop is unrolled for
the fixed `BOARD_SIZE = 4`. -/
def lowestEmptyRow (b : Board) (c : Fin 4) : Option (Fin 4) :=
  if (b 3 c).isNone then some 3
  else if (b 2 c).isNone then some 2
  else if (b 1 c).isNone then some 1
  else if (b 0 c).isNone then some 0
  else none

/-- `Connect4::play(player, column)`: bails with `Invalid column` when
`column >= BOARD_SIZE`, otherwise drops the marker into the lowest empty cell
of the column, bailing with `Column full` when no cell is empty.  The returned
board is the (possibly unchanged) `self.board` after the call. -/
def play (b : Board) (p : Player) (column : Nat) : Board × Option PlayError :=
  if h : 4 ≤ column then (b, some PlayError.invalidColumn)
  else
    let c : Fin 4 := ⟨column, by omega⟩
    match lowestEmptyRow b c with
    | some r => (setCell b r c (some p), none)
    | none => (b, some PlayError.columnFull)

/-- `Connect4::board_full()`: every cell of every row `is_some()`. -/
def board_full (b : Board) : Bool :=
  decide (∀ r : Fin 4, ∀ c : Fin 4, (b r c).isSome)

/-- `Connect4::column_full(column)`: `self.board[0][column].is_some()`.
The source indexes `self.board[0]` by `column` with no bounds check, so a call
with `column >= 4` panics; the panic is modelled as `none`. -/
def column_full (b : Board) (column : Nat) : Option Bool :=
  if h : column < 4 then some (b 0 ⟨column, h⟩).isSome else none

/-- `usize::checked_add_signed`: `none` when the result would be negative. -/
def checkedAddSigned (x : Nat) (d : Int) : Option Nat :=
  if h : 0 ≤ (x : Int) + d then some ((x : Int) + d).toNat else none

/-- `self.board.get(row).and_then(|row| row.get(col))`: the bounds-checked
cell lookup used by `check_winner`. -/
def cellAt (b : Board) (row col : Nat) : Option Cell :=
  if h : row < 4 ∧ col < 4 then some (b ⟨row, h.1⟩ ⟨col, h.2⟩) else none

/-- One iteration `i` of the loop in `Connect4::check_winner`: both index
offsets succeed (`checked_add_signed`), both land inside the board, and the
cell there equals the (occupied) anchor cell. -/
def stepOk (b : Board) (row col : Nat) (rowDelta colDelta : Int) (p : Player)
    (i : Nat) : Bool :=
  match checkedAddSigned row (rowDelta * i), checkedAddSigned col (colDelta * i) with
  | some r, some c => decide (r < 4) && decide (c < 4) &&
      decide (cellAt b r c = some (some p))
  | some _, none => false
  | none, _ => false

/-- `Connect4::check_winner(row, col, row_delta, col_delta)`: `none` when the
anchor is out of bounds or empty, otherwise `some` of the anchor's player iff
the three loop iterations `i = 1, 2, 3` all succeed. -/
def checkWinner (b : Board) (row col : Nat) (rowDelta colDelta : Int) : Option Player :=
  match cellAt b row col with
  | none => none
  | some none => none
  | some (some p) =>
      if stepOk b row col rowDelta colDelta p 1 && stepOk b row col rowDelta colDelta p 2
          && stepOk b row col rowDelta colDelta p 3 then some p
      else none

/-- First-`some` choice, modelling the early `return Some(player)` pattern of
`Connect4::winner`. -/
def orElseO (a b : Option Player) : Option Player :=
  match a with
  | some p => some p
  | none => b

/-- `Connect4::winner()`: rows 0..3 horizontally (`check_winner(row, 0, 0, 1)`),
then columns 0..3 vertically (`check_winner(0, col, 1, 0)`), then the main
diagonal (`check_winner(0, 0, 1, 1)`), then the anti-diagonal
(`check_winner(0, BOARD_SIZE - 1, 1, -1)`); first hit wins.  The two
`for` loops over `0..BOARD_SIZE` are unrolled. -/
def winner (b : Board) : Option Player :=
  orElseO (checkWinner b 0 0 0 1)
    (orElseO (checkWinner b 1 0 0 1)
      (orElseO (checkWinner b 2 0 0 1)
        (orElseO (checkWinner b 3 0 0 1)
          (orElseO (checkWinner b 0 0 1 0)
            (orElseO (checkWinner b 0 1 1 0)
              (orElseO (checkWinner b 0 2 1 0)
                (orElseO (checkWinner b 0 3 1 0)
                  (orElseO (checkWinner b 0 0 1 1)
                    (checkWinner b 0 3 1 (-1))))))))))

/-- `Connect4::reset()`: every cell back to `Cell::default()`. -/
def Connect4.resetBoard (_b : Board) : Board := Connect4.new

/-- State of `rand::rngs::StdRng` as used here: the seed it was built from
(`seed_from_u64`) and how many booleans have been drawn.  The bit stream is
an arbitrary pure function `g` of seed and draw index, supplied as a
parameter wherever bits are drawn. -/
structure Rng where
  seed : Nat
  count : Nat
deriving DecidableEq

/-- `StdRng::seed_from_u64(s)`. -/
def seedFromU64 (s : Nat) : Rng := ⟨s, 0⟩

/-- `rng.gen::<bool>()`: returns the next bit of the stream and advances. -/
def genBool (g : Nat → Nat → Bool) (r : Rng) : Bool × Rng :=
  (g r.seed r.count, ⟨r.seed, r.count + 1⟩)

/-- One cell of `Connect4::random`: `Cookie` on `true`, `Milk` on `false`. -/
def drawCell (g : Nat → Nat → Bool) (r : Rng) : Cell × Rng :=
  let br := genBool g r
  (some (if br.1 then Player.cookie else Player.milk), br.2)

/-- The cells in the order the nested loops of `Connect4::random` visit them:
rows outer, columns inner. -/
def boardPositions : List (Fin 4 × Fin 4) :=
  (List.finRange 4).flatMap fun row => (List.finRange 4).map fun col => (row, col)

/-- The loop body of `Connect4::random`: draw one boolean per cell and store
the corresponding player's marker. -/
def randomFill (g : Nat → Nat → Bool) :
    List (Fin 4 × Fin 4) → Board → Rng → Board × Rng
  | [], b, r => (b, r)
  | pos :: rest, b, r =>
      let cr := drawCell g r
      randomFill g rest (setCell b pos.1 pos.2 cr.1) cr.2

/-- `Connect4::random(rng)`: start from `Connect4::new()` and fill every cell. -/
def Connect4.random (g : Nat → Nat → Bool) (r : Rng) : Board × Rng :=
  randomFill g boardPositions Connect4.new r

/-! ## Rendering (`impl Display for Connect4`) -/

/-- The border glyph written at both ends of each row and in the closing line. -/
def wallGlyph : String := "έυε"

/-- The glyph for an empty cell. -/
def emptyGlyph : String := "έυδ"

/-- `impl Display for Player`. -/
def Player.glyph : Player → String
  | Player.milk => "Ώθξδ"
  | Player.cookie => "ΏθΞς"

/-- `cell.map(|p| p.to_string()).unwrap_or(empty glyph)`. -/
def cellGlyph : Cell → String
  | some p => p.glyph
  | none => emptyGlyph

/-- One row of the rendering: border, four cells, border, newline. -/
def renderRow (b : Board) (r : Fin 4) : String :=
  wallGlyph ++ cellGlyph (b r 0) ++ cellGlyph (b r 1) ++ cellGlyph (b r 2)
    ++ cellGlyph (b r 3) ++ wallGlyph ++ "\n"

/-- The grid part of the rendering: four rows, then the closing border line
(the border glyph repeated `BOARD_SIZE + 2` times). -/
def renderGrid (b : Board) : String :=
  renderRow b 0 ++ renderRow b 1 ++ renderRow b 2 ++ renderRow b 3
    ++ String.join (List.replicate 6 wallGlyph) ++ "\n"

/-- The trailing status line: `"<winner> wins!"` when there is a winner, else
`"No winner."` when the board is full, else nothing. -/
def renderStatus (b : Board) : String :=
  match winner b with
  | some p => p.glyph ++ " wins!\n"
  | none => if board_full b then "No winner.\n" else ""

/-- `Connect4::to_string()`: the grid followed by the status line. -/
def render (b : Board) : String :=
  renderGrid b ++ renderStatus b

/-! ## The day-twelve handlers (`src/modules/day_twelve.rs`) -/

/-- The session state held behind the `RwLock`: the authoritative board and
the RNG. -/
structure GameState where
  game_state : Board
  rng : Rng

/-- An HTTP response, reduced to what the handlers produce: a status code and
a text body. -/
structure HttpResponse where
  status : Nat
  body : String

/-- Observable lock events of a handler run, used to record where in the
handler body the session lock is acquired. -/
inductive Event where
  | writeLockAcquired
deriving DecidableEq

/-- The starting state of `RouterState::new()`: an empty board and
`StdRng::seed_from_u64(2024)`. -/
def initialState : GameState := ⟨Connect4.new, seedFromU64 2024⟩

/-- The `board` handler: read-lock, render the authoritative board, 200. -/
def boardHandler (s : GameState) : HttpResponse :=
  ⟨200, render s.game_state⟩

/-- The `reset` handler: under the write lock, `game_state.reset()` and
`rng = StdRng::seed_from_u64(2024)`, then 200 with the rendered (now empty)
board. -/
def reset (s : GameState) : HttpResponse × GameState :=
  let s2 : GameState := ⟨Connect4.resetBoard s.game_state, seedFromU64 2024⟩
  (⟨200, render s2.game_state⟩, s2)

/-- The `place` handler.  The source acquires the write lock first
(`state.0.write().await`, line 46), then validates `(1..=BOARD_SIZE)
.contains(&column)` (400 on failure), then checks
`column_full(column - 1) || board_full() || winner().is_some()` (503 with the
current board on failure), then calls `play(player, column - 1)` (a failure
would surface as 500 through `utils::error_handling`).  The returned event
list records that every path runs under the acquired write lock. -/
def place (p : Player) (column : Nat) (s : GameState) :
    HttpResponse × GameState × List Event :=
  if ¬ (1 ≤ column ∧ column ≤ 4) then
    (⟨400, ""⟩, s, [Event.writeLockAcquired])
  else if column_full s.game_state (column - 1) = some true
      ∨ board_full s.game_state = true ∨ (winner s.game_state).isSome = true then
    (⟨503, render s.game_state⟩, s, [Event.writeLockAcquired])
  else
    match play s.game_state p (column - 1) with
    | (b2, none) => (⟨200, render b2⟩, ⟨b2, s.rng⟩, [Event.writeLockAcquired])
    | (b2, some PlayError.invalidColumn) =>
        (⟨500, "Invalid column"⟩, ⟨b2, s.rng⟩, [Event.writeLockAcquired])
    | (b2, some PlayError.columnFull) =>
        (⟨500, "Column full"⟩, ⟨b2, s.rng⟩, [Event.writeLockAcquired])

/-- The `random-board` handler: under the write lock, draw a synthetic board
from the session RNG (`Connect4::random(&mut state.rng)` advances the RNG in
place), render it, 200.  The synthetic board is not stored. -/
def random_board (g : Nat → Nat → Bool) (s : GameState) :
    HttpResponse × GameState :=
  let br := Connect4.random g s.rng
  (⟨200, render br.1⟩, ⟨s.game_state, br.2⟩)

/-! ## Specification-side definitions

These follow the wording of the winner claim — "player p's marker fills an
entire horizontal row, an entire vertical column, or one of the two main
diagonals", scanned rows first, then columns, then the two diagonals — and
are compared against the `winner` function embedded from the source. -/

/-- A line of four cells won by `p`: every cell is `p`'s marker (the head
cell determines the only possible winner of the line). -/
def lineWinner (line : Fin 4 → Cell) : Option Player :=
  match line 0 with
  | none => none
  | some p => if ∀ c : Fin 4, line c = some p then some p else none

/-- The winner of horizontal row `r`, per the claim's wording. -/
def rowWinner (b : Board) (r : Fin 4) : Option Player :=
  lineWinner fun c => b r c

/-- The winner of vertical column `c`, per the claim's wording. -/
def colWinner (b : Board) (c : Fin 4) : Option Player :=
  lineWinner fun r => b r c

/-- The winner of the top-left-anchored diagonal, per the claim's wording. -/
def mainDiagWinner (b : Board) : Option Player :=
  lineWinner fun i => b i i

/-- The winner of the top-right-anchored diagonal, per the claim's wording. -/
def antiDiagWinner (b : Board) : Option Player :=
  lineWinner fun i => b i ⟨3 - i.val, by omega⟩

/-- The claim's scan: all horizontal rows first, then all vertical columns,
then the top-left diagonal, then the top-right diagonal; first winner found
is returned. -/
def winnerSpec (b : Board) : Option Player :=
  orElseO ((List.finRange 4).findSome? (rowWinner b))
    (orElseO ((List.finRange 4).findSome? (colWinner b))
      (orElseO (mainDiagWinner b) (antiDiagWinner b)))

/-- Player `p`'s marker fills an entire horizontal row. -/
def fillsRow (b : Board) (p : Player) : Prop :=
  ∃ r : Fin 4, ∀ c : Fin 4, b r c = some p

/-- Player `p`'s marker fills an entire vertical column. -/
def fillsColumn (b : Board) (p : Player) : Prop :=
  ∃ c : Fin 4, ∀ r : Fin 4, b r c = some p

/-- Player `p`'s marker fills the top-left-anchored diagonal. -/
def fillsMainDiag (b : Board) (p : Player) : Prop :=
  ∀ i : Fin 4, b i i = some p

/-- Player `p`'s marker fills the top-right-anchored diagonal. -/
def fillsAntiDiag (b : Board) (p : Player) : Prop :=
  ∀ i : Fin 4, b i ⟨3 - i.val, by omega⟩ = some p

/-- Player `p` has four in a row in one of the ten scanned lines. -/
def fillsLine (b : Board) (p : Player) : Prop :=
  fillsRow b p ∨ fillsColumn b p ∨ fillsMainDiag b p ∨ fillsAntiDiag b p

/-! ## Concrete boards and request scenarios used as test inputs -/

/-- One milk marker dropped into column 0 (it lands in row 3). -/
def oneMove : Board := (play Connect4.new Player.milk 0).1

/-- A board whose ONLY occupied cell is the topmost cell of column 0.  It
violates the gravity invariant, so `play` never produces it, but it is a
legal value of the board type. -/
def topOnly : Board := setCell Connect4.new 0 0 (some Player.milk)

/-- The bottom row entirely milk: a horizontal milk win. -/
def bottomRowMilk : Board := fun r _ => if r = 3 then some Player.milk else none

/-- The scenario of the spec: state after `POST /reset`. -/
def scenState0 : GameState := (reset initialState).2

/-- Scenario: first `POST /place/milk/1`. -/
def scenStep1 : HttpResponse × GameState × List Event :=
  place Player.milk 1 scenState0

/-- Scenario state after the first place request. -/
def scenState1 : GameState := scenStep1.2.1

/-- Scenario: `POST /place/cookie/1`. -/
def scenStep2 : HttpResponse × GameState × List Event :=
  place Player.cookie 1 scenState1

/-- Scenario state after the second place request. -/
def scenState2 : GameState := scenStep2.2.1

/-- Scenario: `POST /place/milk/1`. -/
def scenStep3 : HttpResponse × GameState × List Event :=
  place Player.milk 1 scenState2

/-- Scenario state after the third place request. -/
def scenState3 : GameState := scenStep3.2.1

/-- Scenario: the fourth place request on column 1, `POST /place/cookie/1`. -/
def scenStep4 : HttpResponse × GameState × List Event :=
  place Player.cookie 1 scenState3

/-- Scenario state after the fourth place request. -/
def scenState4 : GameState := scenStep4.2.1

/-- Scenario: a fifth place request on column 1. -/
def scenStep5 : HttpResponse × GameState × List Event :=
  place Player.milk 1 scenState4


/-! ## Helper lemmas -/

lemma orElseO_assoc (a b c : Option Player) :
    orElseO (orElseO a b) c = orElseO a (orElseO b c) := by
  cases a <;> rfl

lemma orElseO_none (a : Option Player) : orElseO none a = a := rfl

lemma orElseO_eq_some (a b : Option Player) (p : Player) :
    orElseO a b = some p ↔ a = some p ∨ (a = none ∧ b = some p) := by
  cases a <;> simp [orElseO]

lemma orElseO_eq_none (a b : Option Player) :
    orElseO a b = none ↔ a = none ∧ b = none := by
  cases a <;> simp [orElseO]

lemma rowChar : ∀ line : Fin 4 → Cell,
    checkWinner (fun _ c => line c) 0 0 0 1 = lineWinner line := by decide

lemma colChar : ∀ line : Fin 4 → Cell,
    checkWinner (fun r _ => line r) 0 0 1 0 = lineWinner line := by decide

lemma diagChar : ∀ line : Fin 4 → Cell,
    checkWinner (fun r _ => line r) 0 0 1 1 = lineWinner line := by decide

lemma antiChar : ∀ line : Fin 4 → Cell,
    checkWinner (fun r _ => line r) 0 3 1 (-1) = lineWinner line := by decide

lemma checkWinner_row0 (b : Board) : checkWinner b 0 0 0 1 = rowWinner b 0 :=
  rowChar fun c => b 0 c

lemma checkWinner_row1 (b : Board) : checkWinner b 1 0 0 1 = rowWinner b 1 :=
  rowChar fun c => b 1 c

lemma checkWinner_row2 (b : Board) : checkWinner b 2 0 0 1 = rowWinner b 2 :=
  rowChar fun c => b 2 c

lemma checkWinner_row3 (b : Board) : checkWinner b 3 0 0 1 = rowWinner b 3 :=
  rowChar fun c => b 3 c

lemma checkWinner_col0 (b : Board) : checkWinner b 0 0 1 0 = colWinner b 0 :=
  colChar fun r => b r 0

lemma checkWinner_col1 (b : Board) : checkWinner b 0 1 1 0 = colWinner b 1 :=
  colChar fun r => b r 1

lemma checkWinner_col2 (b : Board) : checkWinner b 0 2 1 0 = colWinner b 2 :=
  colChar fun r => b r 2

lemma checkWinner_col3 (b : Board) : checkWinner b 0 3 1 0 = colWinner b 3 :=
  colChar fun r => b r 3

lemma checkWinner_diag (b : Board) : checkWinner b 0 0 1 1 = mainDiagWinner b :=
  diagChar fun i => b i i

lemma checkWinner_anti (b : Board) : checkWinner b 0 3 1 (-1) = antiDiagWinner b :=
  antiChar fun i => b i ⟨3 - i.val, by omega⟩

lemma findSome?_cons_orElseO (f : Fin 4 → Option Player) (a : Fin 4) (l : List (Fin 4)) :
    List.findSome? f (a :: l) = orElseO (f a) (List.findSome? f l) := by
  cases h : f a <;> simp [List.findSome?_cons, h, orElseO]

lemma finRange_four : List.finRange 4 = [0, 1, 2, 3] := by decide

lemma winner_eq_winnerSpec (b : Board) : winner b = winnerSpec b := by
  unfold winner winnerSpec
  rw [checkWinner_row0, checkWinner_row1, checkWinner_row2, checkWinner_row3,
    checkWinner_col0, checkWinner_col1, checkWinner_col2, checkWinner_col3,
    checkWinner_diag, checkWinner_anti, finRange_four]
  rw [findSome?_cons_orElseO, findSome?_cons_orElseO, findSome?_cons_orElseO,
    findSome?_cons_orElseO, findSome?_cons_orElseO, findSome?_cons_orElseO,
    findSome?_cons_orElseO, findSome?_cons_orElseO]
  simp only [List.findSome?_nil, orElseO_assoc, orElseO_none]


lemma lineWinner_some_iff : ∀ (line : Fin 4 → Cell) (p : Player),
    lineWinner line = some p ↔ ∀ c, line c = some p := by decide

lemma winnerSpec_some_fills (b : Board) (p : Player)
    (h : winnerSpec b = some p) : fillsLine b p := by
  unfold winnerSpec at h
  rcases (orElseO_eq_some _ _ _).mp h with hrows | ⟨_, h⟩
  · obtain ⟨r, _, hr⟩ := List.exists_of_findSome?_eq_some hrows
    exact Or.inl ⟨r, fun c => ((lineWinner_some_iff _ p).mp hr) c⟩
  rcases (orElseO_eq_some _ _ _).mp h with hcols | ⟨_, h⟩
  · obtain ⟨c, _, hc⟩ := List.exists_of_findSome?_eq_some hcols
    exact Or.inr (Or.inl ⟨c, fun r => ((lineWinner_some_iff _ p).mp hc) r⟩)
  rcases (orElseO_eq_some _ _ _).mp h with hmain | ⟨_, hanti⟩
  · exact Or.inr (Or.inr (Or.inl fun i => ((lineWinner_some_iff _ p).mp hmain) i))
  · exact Or.inr (Or.inr (Or.inr fun i => ((lineWinner_some_iff _ p).mp hanti) i))

lemma fills_winnerSpec_ne_none (b : Board) (p : Player)
    (h : fillsLine b p) : winnerSpec b ≠ none := by
  intro hn
  unfold winnerSpec at hn
  rw [orElseO_eq_none, orElseO_eq_none, orElseO_eq_none] at hn
  obtain ⟨hrows, hcols, hmain, hanti⟩ := hn
  rcases h with ⟨r, hr⟩ | ⟨c, hc⟩ | hd | ha
  · have := List.findSome?_eq_none_iff.mp hrows r (List.mem_finRange r)
    rw [show rowWinner b r = some p from (lineWinner_some_iff _ p).mpr hr] at this
    exact Option.noConfusion this
  · have := List.findSome?_eq_none_iff.mp hcols c (List.mem_finRange c)
    rw [show colWinner b c = some p from (lineWinner_some_iff _ p).mpr hc] at this
    exact Option.noConfusion this
  · rw [show mainDiagWinner b = some p from (lineWinner_some_iff _ p).mpr hd] at hmain
    exact Option.noConfusion hmain
  · rw [show antiDiagWinner b = some p from (lineWinner_some_iff _ p).mpr ha] at hanti
    exact Option.noConfusion hanti


/-- C1: `winner()` agrees with the spec-side scan `winnerSpec` (all horizontal
rows first, then all vertical columns, then the top-left diagonal, then the
top-right diagonal, first winner found returned); whenever it returns
`some p`, player `p` fills a row, a column, or a diagonal; it returns `none`
exactly when no player has four in a row; and it is `none` on the empty
board. -/
theorem winner_characterization :
    (∀ b : Board, winner b = winnerSpec b ∧
      (∀ p : Player, winner b = some p → fillsLine b p) ∧
      (winner b = none ↔ ∀ p : Player, ¬ fillsLine b p)) ∧
    winner Connect4.new = none := by
  constructor
  · intro b
    refine ⟨winner_eq_winnerSpec b, ?_, ?_⟩
    · intro p hp
      rw [winner_eq_winnerSpec] at hp
      exact winnerSpec_some_fills b p hp
    · constructor
      · intro hn p hfill
        rw [winner_eq_winnerSpec] at hn
        exact fills_winnerSpec_ne_none b p hfill hn
      · intro h
        rcases hw : winner b with _ | p
        · rfl
        · exact absurd (winnerSpec_some_fills b p ((winner_eq_winnerSpec b) ▸ hw))
            (h p)
  · decide

/-- Witness for the winner claim, at a board whose bottom row is all milk. -/
theorem winner_characterization_witness : fillsLine bottomRowMilk Player.milk :=
  (winner_characterization.1 bottomRowMilk).2.1 Player.milk (by decide)


lemma lowestEmptyRow_col_some : ∀ (col : Fin 4 → Cell) (r : Fin 4),
    lowestEmptyRow (fun i _ => col i) 0 = some r ↔
      col r = none ∧ ∀ r' : Fin 4, r < r' → (col r').isSome := by decide

lemma lowestEmptyRow_col_none : ∀ col : Fin 4 → Cell,
    lowestEmptyRow (fun i _ => col i) 0 = none ↔ ∀ r : Fin 4, (col r).isSome := by
  decide

lemma lowestEmptyRow_some_iff (b : Board) (c r : Fin 4) :
    lowestEmptyRow b c = some r ↔
      b r c = none ∧ ∀ r' : Fin 4, r < r' → (b r' c).isSome :=
  lowestEmptyRow_col_some (fun i => b i c) r

lemma lowestEmptyRow_none_iff (b : Board) (c : Fin 4) :
    lowestEmptyRow b c = none ↔ ∀ r : Fin 4, (b r c).isSome :=
  lowestEmptyRow_col_none fun i => b i c


lemma play_eq_of_lowest_some (b : Board) (p : Player) (c : Nat) (hc : c < 4)
    (r : Fin 4) (hL : lowestEmptyRow b ⟨c, hc⟩ = some r) :
    play b p c = (setCell b r ⟨c, hc⟩ (some p), none) := by
  have h4 : ¬ 4 ≤ c := by omega
  simp [play, h4, hL]

lemma play_eq_of_lowest_none (b : Board) (p : Player) (c : Nat) (hc : c < 4)
    (hL : lowestEmptyRow b ⟨c, hc⟩ = none) :
    play b p c = (b, some PlayError.columnFull) := by
  have h4 : ¬ 4 ≤ c := by omega
  simp [play, h4, hL]

lemma play_eq_of_ge (b : Board) (p : Player) (c : Nat) (h4 : 4 ≤ c) :
    play b p c = (b, some PlayError.invalidColumn) := by
  simp [play, h4]


/-- C2 counterexample: on the board whose only occupied cell is the TOP of
column 0, `play` into column 0 succeeds (dropping to row 3) instead of
failing with `ColumnFull`, although the topmost cell is occupied. -/
theorem play_columnFull_top_cell_cex :
    (topOnly 0 0).isSome = true ∧ (0 : Nat) < 4 ∧
    (play topOnly Player.milk 0).2 = none ∧
    (play topOnly Player.milk 0).1 = setCell topOnly 3 0 (some Player.milk) := by
  decide

/-- C2 (amended): `play` fails with `InvalidColumn` iff the column is out of
range; fails with `ColumnFull` iff the column is in range and EVERY cell of
the column is occupied; leaves the board unchanged on any error; and on
success writes the lowest empty cell of the column and nothing else. -/
theorem play_spec :
    ∀ (b : Board) (p : Player) (c : Nat),
    ((play b p c).2 = some PlayError.invalidColumn ↔ 4 ≤ c) ∧
    ((play b p c).2 = some PlayError.columnFull ↔
      ∃ h : c < 4, ∀ r : Fin 4, (b r ⟨c, h⟩).isSome) ∧
    ((play b p c).2 ≠ none → (play b p c).1 = b) ∧
    ((play b p c).2 = none → ∃ h : c < 4, ∃ r : Fin 4,
      b r ⟨c, h⟩ = none ∧ (∀ r' : Fin 4, r < r' → (b r' ⟨c, h⟩).isSome) ∧
      (play b p c).1 = setCell b r ⟨c, h⟩ (some p)) := by
  intro b p c
  by_cases h4 : 4 ≤ c
  · rw [play_eq_of_ge b p c h4]
    refine ⟨by simpa using h4, ?_, fun _ => rfl, ?_⟩
    · refine iff_of_false (by simp) ?_
      rintro ⟨hc, -⟩
      omega
    · intro hnone
      exact absurd hnone (by simp)
  · have hc : c < 4 := by omega
    rcases hL : lowestEmptyRow b ⟨c, hc⟩ with _ | r
    · rw [play_eq_of_lowest_none b p c hc hL]
      have hall := (lowestEmptyRow_none_iff b ⟨c, hc⟩).mp hL
      refine ⟨iff_of_false (by simp) (by omega), iff_of_true rfl ⟨hc, hall⟩,
        fun _ => rfl, ?_⟩
      intro hnone
      exact absurd hnone (by simp)
    · rw [play_eq_of_lowest_some b p c hc r hL]
      obtain ⟨hempty, habove⟩ := (lowestEmptyRow_some_iff b ⟨c, hc⟩ r).mp hL
      refine ⟨iff_of_false (by simp) (by omega), ?_, ?_, ?_⟩
      · refine iff_of_false (by simp) ?_
        rintro ⟨hc2, hall⟩
        have hsome : (b r ⟨c, hc⟩).isSome := hall r
        rw [hempty] at hsome
        exact Bool.noConfusion hsome
      · intro hne
        exact absurd rfl hne
      · intro _
        exact ⟨hc, r, hempty, habove, rfl⟩

/-- Witness for the amended `play` claim: the success case on the empty
board, column 0 (every hypothesis discharged at that input). -/
theorem play_spec_witness :
    ∃ h : (0 : Nat) < 4, ∃ r : Fin 4,
      Connect4.new r ⟨0, h⟩ = none ∧
      (∀ r' : Fin 4, r < r' → (Connect4.new r' ⟨0, h⟩).isSome) ∧
      (play Connect4.new Player.milk 0).1 = setCell Connect4.new r ⟨0, h⟩ (some Player.milk) :=
  (play_spec Connect4.new Player.milk 0).2.2.2 (by decide)

/-- C7: `play` never clears or overwrites an occupied cell — whether it
succeeds or fails, every cell occupied before the call is occupied by the
same marker afterwards. -/
theorem play_monotone :
    ∀ (b : Board) (p : Player) (column : Nat) (r c : Fin 4) (q : Player),
    b r c = some q → (play b p column).1 r c = some q := by
  intro b p column r c q hq
  by_cases h4 : 4 ≤ column
  · rw [play_eq_of_ge b p column h4]
    exact hq
  · have hc : column < 4 := by omega
    rcases hL : lowestEmptyRow b ⟨column, hc⟩ with _ | r0
    · rw [play_eq_of_lowest_none b p column hc hL]
      exact hq
    · rw [play_eq_of_lowest_some b p column hc r0 hL]
      obtain ⟨hempty, -⟩ := (lowestEmptyRow_some_iff b ⟨column, hc⟩ r0).mp hL
      simp only [setCell]
      split_ifs with heq
      · rw [heq.1, heq.2] at hq
        rw [hempty] at hq
        exact Option.noConfusion hq
      · exact hq

/-- Witness for the monotonicity claim: the milk marker at the bottom of
column 0 survives a further cookie move into the same column. -/
theorem play_monotone_witness : (play oneMove Player.cookie 0).1 3 0 = some Player.milk :=
  play_monotone oneMove Player.cookie 0 3 0 Player.milk (by decide)


/-- C3: for a place request with an in-range column, the handler returns 503
with the currently rendered board and leaves the session state (board and
RNG) unchanged when the requested column is full, the board is full, or a
winner already exists; otherwise `play` succeeds and the handler returns 200
with the rendering of the board after the move. -/
theorem place_in_range_spec :
    ∀ (p : Player) (column : Nat) (s : GameState), 1 ≤ column → column ≤ 4 →
    ((column_full s.game_state (column - 1) = some true ∨
        board_full s.game_state = true ∨ (winner s.game_state).isSome = true) →
      place p column s = (⟨503, render s.game_state⟩, s, [Event.writeLockAcquired])) ∧
    (¬ (column_full s.game_state (column - 1) = some true ∨
        board_full s.game_state = true ∨ (winner s.game_state).isSome = true) →
      (play s.game_state p (column - 1)).2 = none ∧
      place p column s = (⟨200, render (play s.game_state p (column - 1)).1⟩,
        ⟨(play s.game_state p (column - 1)).1, s.rng⟩, [Event.writeLockAcquired])) := by
  intro p column s h1 h4
  have hrange : 1 ≤ column ∧ column ≤ 4 := ⟨h1, h4⟩
  constructor
  · intro hblocked
    unfold place
    rw [if_neg (not_not_intro hrange), if_pos hblocked]
  · intro hfree
    have hlt : column - 1 < 4 := by omega
    have hcf : column_full s.game_state (column - 1) =
        some (s.game_state 0 ⟨column - 1, hlt⟩).isSome := by
      simp [column_full, hlt]
    have htop : s.game_state 0 ⟨column - 1, hlt⟩ = none := by
      rcases hcell : s.game_state 0 ⟨column - 1, hlt⟩ with _ | q
      · rfl
      · exact absurd (Or.inl (by rw [hcf, hcell]; rfl)) hfree
    rcases hL : lowestEmptyRow s.game_state ⟨column - 1, hlt⟩ with _ | r0
    · have := (lowestEmptyRow_none_iff _ _).mp hL 0
      rw [htop] at this
      exact Bool.noConfusion this
    · have hplay := play_eq_of_lowest_some s.game_state p (column - 1) hlt r0 hL
      refine ⟨by rw [hplay], ?_⟩
      unfold place
      rw [if_neg (not_not_intro hrange), if_neg hfree, hplay]


/-- Witness for the place-handler claim: the first milk move into column 1 of
a fresh session succeeds with 200. -/
theorem place_in_range_spec_witness :
    (play initialState.game_state Player.milk 0).2 = none ∧
    place Player.milk 1 initialState =
      (⟨200, render (play initialState.game_state Player.milk 0).1⟩,
        ⟨(play initialState.game_state Player.milk 0).1, initialState.rng⟩,
        [Event.writeLockAcquired]) :=
  (place_in_range_spec Player.milk 1 initialState (by decide) (by decide)).2
    (by decide)

/-- C4: `reset` always produces the empty board and the RNG reseeded to the
fixed constant 2024, regardless of the prior state; consequently the states
after any two resets coincide, and the next `random-board` responses after
them are byte-identical. -/
theorem reset_reproducible :
    ∀ (g : Nat → Nat → Bool) (s1 s2 : GameState),
    (reset s1).2.game_state = Connect4.new ∧
    (reset s1).2.rng = seedFromU64 2024 ∧
    (reset s1).1 = ⟨200, render Connect4.new⟩ ∧
    (reset s1).2 = (reset s2).2 ∧
    (random_board g (reset s1).2).1 = (random_board g (reset s2).2).1 :=
  fun _ _ _ => ⟨rfl, rfl, rfl, rfl, rfl⟩

/-- C6 counterexample: a place request with column 0 (outside `[1, 4]`) is
answered with 400, but the run's event trace shows the session write lock WAS
acquired first — the source takes the lock before validating the column. -/
theorem place_bad_column_lock_cex :
    (place Player.milk 0 initialState).1.status = 400 ∧
    (place Player.milk 0 initialState).2.2 = [Event.writeLockAcquired] := by
  decide

/-- C6 (amended): an out-of-range column is rejected with 400 and neither the
board nor the RNG state is mutated, but the rejection happens under the
session write lock, which the handler acquires before validating. -/
theorem place_bad_column_rejected :
    ∀ (p : Player) (column : Nat) (s : GameState),
    ¬ (1 ≤ column ∧ column ≤ 4) →
    place p column s = (⟨400, ""⟩, s, [Event.writeLockAcquired]) := by
  intro p column s hout
  unfold place
  rw [if_pos hout]

/-- Witness for the amended bad-column claim, at column 5. -/
theorem place_bad_column_rejected_witness :
    place Player.cookie 5 initialState = (⟨400, ""⟩, initialState, [Event.writeLockAcquired]) :=
  place_bad_column_rejected Player.cookie 5 initialState (by decide)

/-- C8: the random-board handler never stores the generated board — the
session's authoritative board is exactly what it was, only the RNG state
advances, and the response is 200 with the rendering of the synthetic
board. -/
theorem random_board_preserves_board :
    ∀ (g : Nat → Nat → Bool) (s : GameState),
    (random_board g s).2.game_state = s.game_state ∧
    (random_board g s).2.rng = (Connect4.random g s.rng).2 ∧
    (random_board g s).1 = ⟨200, render (Connect4.random g s.rng).1⟩ := by
  intro g s
  simp [random_board]

/-- C9: `column_full` is defined (does not panic) exactly on columns `< 4`,
and the place handler's pre-validated calls `column_full(column - 1)` with
`column` in `[1, 4]` always fall in that domain. -/
theorem column_full_totality :
    (∀ (b : Board) (c : Nat), (column_full b c).isSome = true ↔ c < 4) ∧
    (∀ (b : Board) (column : Nat), 1 ≤ column → column ≤ 4 →
      (column_full b (column - 1)).isSome = true) := by
  constructor
  · intro b c
    unfold column_full
    split_ifs with h <;> simp [h]
  · intro b column h1 h4
    have hlt : column - 1 < 4 := by omega
    unfold column_full
    rw [dif_pos hlt]
    rfl

/-- Witness for the `column_full` domain claim: defined at column 0 after the
pre-validation of column 1, undefined nowhere below 4. -/
theorem column_full_totality_witness :
    ((column_full Connect4.new 5).isSome = true ↔ 5 < 4) ∧
    (column_full Connect4.new (1 - 1)).isSome = true :=
  ⟨column_full_totality.1 Connect4.new 5,
    column_full_totality.2 Connect4.new 1 (by decide) (by decide)⟩


/-- C5 counterexample: in the spec's scenario (reset, then milk/1, cookie/1,
milk/1, cookie/1) the FOURTH place request on column 1 returns 200 — the
column holds only three markers before it — not 503, and it does change the
board. -/
theorem scenario_fourth_place_cex :
    scenStep4.1.status = 200 ∧ ¬ scenStep4.1.status = 503 ∧
    ¬ scenState4.game_state = scenState3.game_state := by
  decide

/-- C5 (amended): in the scenario the first four place requests on column 1
all succeed with 200; the FIFTH place request on column 1 returns 503
because the column is then full, its body is the rendering of the board from
before that request, and the board is unchanged by it. -/
theorem scenario_fifth_place_503 :
    scenStep1.1.status = 200 ∧ scenStep2.1.status = 200 ∧
    scenStep3.1.status = 200 ∧ scenStep4.1.status = 200 ∧
    column_full scenState4.game_state 0 = some true ∧
    scenStep5.1.status = 503 ∧
    scenStep5.2.1.game_state = scenState4.game_state ∧
    scenStep5.2.1.rng = scenState4.rng ∧
    scenStep5.1.body = render scenState4.game_state := by
  decide


lemma mem_boardPositions : ∀ q : Fin 4 × Fin 4, q ∈ boardPositions := by decide

lemma randomFill_isSome (g : Nat → Nat → Bool) :
    ∀ (l : List (Fin 4 × Fin 4)) (b : Board) (r : Rng) (i j : Fin 4),
    ((i, j) ∈ l ∨ (b i j).isSome) → (((randomFill g l b r).1) i j).isSome := by
  intro l
  induction l with
  | nil =>
    intro b r i j h
    rcases h with hmem | hsome
    · exact absurd hmem (List.not_mem_nil _)
    · exact hsome
  | cons hd tl ih =>
    intro b r i j h
    simp only [randomFill]
    apply ih
    rcases h with hmem | hsome
    · rcases List.mem_cons.mp hmem with heq | htl
      · right
        simp [setCell, drawCell, genBool, ← heq]
      · exact Or.inl htl
    · right
      simp only [setCell]
      split_ifs with hij
      · simp [drawCell, genBool]
      · exact hsome

/-- C10: every cell of a synthetic random board is occupied, so
`board_full` holds of it, and its rendering always ends with a status
line — a win message or `No winner.`. -/
theorem random_board_always_full :
    ∀ (g : Nat → Nat → Bool) (r : Rng),
    (∀ i j : Fin 4, (((Connect4.random g r).1) i j).isSome = true) ∧
    board_full (Connect4.random g r).1 = true ∧
    render (Connect4.random g r).1 =
      renderGrid (Connect4.random g r).1 ++ renderStatus (Connect4.random g r).1 ∧
    ((∃ p : Player, renderStatus (Connect4.random g r).1 = p.glyph ++ " wins!\n") ∨
      renderStatus (Connect4.random g r).1 = "No winner.\n") := by
  intro g r
  have hsome : ∀ i j : Fin 4, (((Connect4.random g r).1) i j).isSome = true := by
    intro i j
    exact randomFill_isSome g boardPositions Connect4.new r i j
      (Or.inl (mem_boardPositions (i, j)))
  have hfull : board_full (Connect4.random g r).1 = true := by
    simp only [board_full, decide_eq_true_eq]
    intro i j
    exact hsome i j
  refine ⟨hsome, hfull, rfl, ?_⟩
  unfold renderStatus
  rcases hw : winner (Connect4.random g r).1 with _ | p
  · right
    simp [hfull]
  · exact Or.inl ⟨p, rfl⟩

end CCH
